import Mathlib

/-!
Flashcard server (`src/server.js`): a shallow embedding.

The four routes of `server.js` are embedded as functions on an explicit server
state: the two document collections of the store (`Flashcard` and `Collection`
documents, each in insertion order), the generator of fresh `ObjectId`s and the
set of files in the temporary upload directory.

Conventions of the embedding:

* a JavaScript string is a `String`; `String.prototype.trim` is `trim`, which
  strips the ECMAScript `WhiteSpace` and `LineTerminator` code points;
* a value that may be `undefined` is an `Option`; `truthy` is the JavaScript
  truthiness test on such a value;
* an `ObjectId` is a natural number drawn from a counter, so that a new
  document never receives an identifier that was handed out before;
* a rejected promise of a store operation is an explicit fault argument of the
  route, so that every `catch` branch of the source is present in the embedding;
* requests are handled one after the other (no interleaving of handlers), and
  the read stream of an uploaded file always reaches its `end` event.
-/

namespace Server

/-! ## JavaScript values -/

/-- ECMAScript `WhiteSpace` and `LineTerminator` code points: the characters
that `String.prototype.trim` strips. -/
def isWhiteSpace (c : Char) : Bool :=
  let n := c.toNat
  n == 0x9 || n == 0xA || n == 0xB || n == 0xC || n == 0xD || n == 0x20 ||
  n == 0xA0 || n == 0x1680 || (0x2000 ≤ n && n ≤ 0x200A) || n == 0x2028 ||
  n == 0x2029 || n == 0x202F || n == 0x205F || n == 0x3000 || n == 0xFEFF

/-- The method `String.prototype.trim` on a list of characters. -/
def trimChars (cs : List Char) : List Char :=
  ((cs.dropWhile isWhiteSpace).reverse.dropWhile isWhiteSpace).reverse

/-- The method `String.prototype.trim`. -/
def trim (s : String) : String := ⟨trimChars s.data⟩

/-- JavaScript truthiness of a value that is a string or `undefined`. -/
def truthy : Option String → Bool
  | none => false
  | some s => s != ""

/-! ## Data model (the two mongoose schemas) -/

abbrev ObjectId := Nat

/-- A document of the `Flashcard` model (`flashcardSchema`). -/
structure Flashcard where
  _id : ObjectId
  front : String
  back : String
  collectionName : String
  known : Bool
  reviewed : Bool
deriving DecidableEq, Repr

/-- A document of the `Collection` model (`collectionSchema`). -/
structure Collection where
  _id : ObjectId
  name : String
  flashcards : List ObjectId
deriving DecidableEq, Repr

/-- The object literal `{ front, back, collectionName }` pushed by the `data`
handler: a card that is not persisted yet. -/
structure Candidate where
  front : String
  back : String
  collectionName : String
deriving DecidableEq, Repr

/-- The document store: the documents of each model, in insertion order. -/
structure Store where
  flashcards : List Flashcard
  collections : List Collection
deriving DecidableEq, Repr

/-- The state of the server between two requests. -/
structure State where
  db : Store
  nextId : ObjectId
  disk : List String
deriving DecidableEq, Repr

/-- The state at start-up: an empty store and an empty upload directory. -/
def init : State := ⟨⟨[], []⟩, 0, []⟩

/-! ## Requests and responses -/

/-- One row object emitted by `csvParser()`: the `Front` and `Back` properties
(absent when the header has no such column) and every other column. -/
structure Row where
  Front : Option String
  Back : Option String
  extra : List (String × String)
deriving DecidableEq, Repr

/-- The `req.file` of multer: the path of the temporary file and the rows that
`csvParser()` emits when the file is read. -/
structure UploadedFile where
  path : String
  rows : List Row
deriving DecidableEq, Repr

/-- The upload request after `upload.single` ran: `req.file` and
`req.body.collectionName`. -/
structure UploadRequest where
  file : Option UploadedFile
  collectionName : Option String
deriving DecidableEq, Repr

/-- What the store does during the `end` handler of an upload: both writes
succeed, `insertMany` rejects after having written `written` documents, or
`collection.save` rejects. -/
inductive Fault where
  | none
  | insertMany (written : Nat)
  | save
deriving DecidableEq, Repr

/-- The JSON body of a response. -/
inductive Body where
  | message (text : String)
  | cards (docs : List Flashcard)
  | collections (docs : List Collection)
  | card (doc : Option Flashcard)
deriving DecidableEq, Repr

/-- An HTTP response: status code and JSON body. -/
structure Response where
  status : Nat
  body : Body
deriving DecidableEq, Repr

/-! ## Route 1: `POST /api/flashcards/upload` -/

/-- The expression `data.X ? data.X.trim() : ''` of the `data` handler. -/
def cleaned (v : Option String) : String :=
  match v with
  | some s => if truthy (some s) then trim s else ""
  | none => ""

/-- The `data` handler: one step of the row loop on the buffer `flashcards`. -/
def onData (collectionName : String) (flashcards : List Candidate) (data : Row) :
    List Candidate :=
  let front := cleaned data.Front
  let back := cleaned data.Back
  if !truthy (some front) || !truthy (some back) then flashcards
  else flashcards ++ [{ front := front, back := back, collectionName := collectionName }]

/-- The buffer when the stream ends: `onData` on every row, in file order. -/
def parseRows (collectionName : String) (rows : List Row) : List Candidate :=
  rows.foldl (onData collectionName) []

/-- The documents that `Flashcard.insertMany` builds: one per candidate, with
consecutive fresh identifiers and the schema defaults. -/
def mkDocs (next : ObjectId) : List Candidate → List Flashcard
  | [] => []
  | c :: cs =>
    { _id := next, front := c.front, back := c.back, collectionName := c.collectionName,
      known := false, reviewed := false } :: mkDocs (next + 1) cs

/-- The middleware `upload.single`: the uploaded file is written to the upload directory before the
handler runs. -/
def multerSingle (st : State) (req : UploadRequest) : State :=
  match req.file with
  | none => st
  | some f => { st with disk := f.path :: st.disk.filter (· != f.path) }

/-- The call `fs.unlinkSync(path)`. -/
def unlinkSync (st : State) (path : String) : State :=
  { st with disk := st.disk.filter (· != path) }

/-- The `end` handler up to (not including) the deletion of the file.
`collection` is the document built by `new Collection({ name })`. -/
def onEnd (st : State) (collection : Collection) (flashcards : List Candidate)
    (fault : Fault) : Response × State :=
  if flashcards.length > 0 then
    let docs := mkDocs st.nextId flashcards
    let st1 := { st with nextId := st.nextId + flashcards.length }
    match fault with
    | .insertMany written =>
      (⟨500, .message "Erreur lors de l'insertion des flashcards dans la base de données"⟩,
       { st1 with db := { st1.db with flashcards := st1.db.flashcards ++ docs.take written } })
    | .save =>
      (⟨500, .message "Erreur lors de l'insertion des flashcards dans la base de données"⟩,
       { st1 with db := { st1.db with flashcards := st1.db.flashcards ++ docs } })
    | .none =>
      let saved := { collection with flashcards := docs.map (·._id) }
      (⟨200, .message "Flashcards uploaded and collection created"⟩,
       { st1 with db := { flashcards := st1.db.flashcards ++ docs,
                          collections := st1.db.collections ++ [saved] } })
  else
    (⟨400, .message "Aucune flashcard valide trouvée dans le fichier CSV"⟩, st)

/-- The handler of `POST /api/flashcards/upload`, multer included. -/
def upload (st : State) (req : UploadRequest) (fault : Fault) : Response × State :=
  let st0 := multerSingle st req
  match req.file with
  | none => (⟨400, .message "Aucun fichier n'a été envoyé."⟩, st0)
  | some file =>
    if !truthy req.collectionName then
      (⟨400, .message "Nom de la collection requis."⟩, st0)
    else
      let collectionName := req.collectionName.getD ""
      let collection : Collection := { _id := st0.nextId, name := collectionName, flashcards := [] }
      let st1 := { st0 with nextId := st0.nextId + 1 }
      let flashcards := parseRows collectionName file.rows
      let r := onEnd st1 collection flashcards fault
      (r.1, unlinkSync r.2 file.path)

/-! ## Routes 2 and 3: the queries -/

/-- The query `Collection.findOne({ name })`: the first document with that exact name. -/
def findOne (db : Store) (name : String) : Option Collection :=
  db.collections.find? (·.name == name)

/-- The query `Flashcard.findById(id)`. -/
def findById (db : Store) (id : ObjectId) : Option Flashcard :=
  db.flashcards.find? (·._id == id)

/-- The call `.populate('flashcards')`: each identifier replaced by its document, in
the stored order; an identifier without a document is dropped. -/
def populate (db : Store) (c : Collection) : List Flashcard :=
  c.flashcards.filterMap (findById db)

/-- The handler of `GET /api/collections/:collectionName`; `dbError` says that
the store query rejects. -/
def getCollectionCards (st : State) (collectionName : String) (dbError : Bool) : Response :=
  if dbError then ⟨500, .message "Error retrieving collection"⟩
  else
    match findOne st.db collectionName with
    | some collection => ⟨200, .cards (populate st.db collection)⟩
    | none => ⟨404, .message "Collection not found"⟩

/-- The handler of `GET /api/collections`. -/
def listCollections (st : State) (dbError : Bool) : Response :=
  if dbError then ⟨500, .message "Error retrieving collections"⟩
  else ⟨200, .collections st.db.collections⟩

/-! ## Route 4: `PUT /api/flashcards/:id` -/

/-- The update `{ known, reviewed }` applied to the first document whose
identifier is `id`. -/
def updateFirst (id : ObjectId) (known reviewed : Bool) : List Flashcard → List Flashcard
  | [] => []
  | c :: cs =>
    if c._id == id then { c with known := known, reviewed := reviewed } :: cs
    else c :: updateFirst id known reviewed cs

/-- The call `Flashcard.findByIdAndUpdate(id, { known, reviewed }, { new: true })`: the
document after the update (`null` when no document has this identifier) and the
store after the update. -/
def findByIdAndUpdate (db : Store) (id : ObjectId) (known reviewed : Bool) :
    Option Flashcard × Store :=
  let db1 := { db with flashcards := updateFirst id known reviewed db.flashcards }
  (findById db1 id, db1)

/-- The handler of `PUT /api/flashcards/:id`. `id` is `req.params.id` cast to an
`ObjectId` (`none` when the cast throws); `dbError` says that the store
operation rejects. -/
def updateCard (st : State) (id : Option ObjectId) (known reviewed : Bool) (dbError : Bool) :
    Response × State :=
  match id with
  | none => (⟨500, .message "Error updating flashcard"⟩, st)
  | some i =>
    if dbError then (⟨500, .message "Error updating flashcard"⟩, st)
    else
      let r := findByIdAndUpdate st.db i known reviewed
      (⟨200, .card r.1⟩, { st with db := r.2 })

/-! ## Sequences of requests -/

/-- A request to the server, with what the store does while it is handled. -/
inductive Request where
  | upload (req : UploadRequest) (fault : Fault)
  | listCollections (dbError : Bool)
  | getCollectionCards (collectionName : String) (dbError : Bool)
  | updateCard (id : Option ObjectId) (known reviewed : Bool) (dbError : Bool)
deriving DecidableEq, Repr

/-- One request handled in state `st`: the response and the next state. -/
def step (st : State) : Request → Response × State
  | .upload req fault => upload st req fault
  | .listCollections dbError => (listCollections st dbError, st)
  | .getCollectionCards name dbError => (getCollectionCards st name dbError, st)
  | .updateCard id known reviewed dbError => updateCard st id known reviewed dbError

/-- The state after a sequence of requests. -/
def run (st : State) : List Request → State
  | [] => st
  | r :: rs => run (step st r).2 rs

/-! ## Specification-side definitions -/

/-- The trimmed value of a column; a missing column has the empty value. -/
def trimmed (v : Option String) : String :=
  match v with
  | some s => trim s
  | none => ""

/-- A row is valid when both trimmed values are non-empty. -/
def validRow (r : Row) : Prop := trimmed r.Front ≠ "" ∧ trimmed r.Back ≠ ""

instance (r : Row) : Decidable (validRow r) := by unfold validRow; infer_instance

/-- The candidate card of a row. -/
def cardOfRow (collectionName : String) (r : Row) : Candidate :=
  { front := trimmed r.Front, back := trimmed r.Back, collectionName := collectionName }

/-- The valid rows of a file as candidate cards, in row order. -/
def validCards (collectionName : String) (rows : List Row) : List Candidate :=
  (rows.filter (fun r => decide (validRow r))).map (cardOfRow collectionName)

/-- The store invariant: every identifier listed by a collection resolves to a
card whose `collectionName` is the name of the collection. -/
def RefsOk (db : Store) : Prop :=
  ∀ c ∈ db.collections, ∀ id ∈ c.flashcards,
    ∃ card, findById db id = some card ∧ card.collectionName = c.name

/-! ## Auxiliary definitions -/

/-- The card document built from a fresh identifier and a candidate. -/
def docOf (id : ObjectId) (c : Candidate) : Flashcard :=
  { _id := id, front := c.front, back := c.back, collectionName := c.collectionName,
    known := false, reviewed := false }

/-- The state in which the `end` handler runs: the file is on disk and the
identifier of the new collection document has been drawn. -/
def staged (st : State) (file : UploadedFile) : State :=
  { db := st.db, nextId := st.nextId + 1, disk := file.path :: st.disk.filter (· != file.path) }

/-- The update `{ known, reviewed }` on one document. -/
def setFlags (known reviewed : Bool) (c : Flashcard) : Flashcard :=
  { c with known := known, reviewed := reviewed }

/-- Every identifier of a stored card was drawn from the generator already. -/
def Fresh (st : State) : Prop := ∀ c ∈ st.db.flashcards, c._id < st.nextId

/-- The invariant carried along a run. -/
def Inv (st : State) : Prop := Fresh st ∧ RefsOk st.db

/-! ## Sample data -/

/-- The three rows of the example upload: the second has an empty `Front`. -/
def sampleRows : List Row :=
  [⟨some "Bonjour", some "Hello", []⟩, ⟨some "", some "Oui", []⟩, ⟨some "Chat", some "Cat", []⟩]

/-- An uploaded file holding `sampleRows`. -/
def sampleFile : UploadedFile := ⟨"uploads/a1", sampleRows⟩

/-- A second uploaded file, with one valid row. -/
def secondFile : UploadedFile := ⟨"uploads/a2", [⟨some "Chien", some "Dog", []⟩]⟩

/-- An uploaded file without a valid row: a missing `Back`, a whitespace-only
`Front`, an empty `Back`. -/
def blankFile : UploadedFile :=
  ⟨"uploads/a3", [⟨some "Bonjour", none, []⟩, ⟨some " \t ", some "Oui", []⟩,
    ⟨some "Chat", some "", [("Note", "x")]⟩]⟩

/-- The state after `sampleFile` was uploaded as collection `French` to the
server at start-up. -/
def frenchState : State := run init [.upload ⟨some sampleFile, some "French"⟩ .none]

/-- A state whose store holds one collection without cards. -/
def emptyCollectionState : State := ⟨⟨[], [⟨0, "Empty", []⟩]⟩, 1, []⟩

/-! ## Lemmas on the row step -/

theorem cleaned_eq_trimmed (v : Option String) : cleaned v = trimmed v := by
  cases v with
  | none => rfl
  | some s =>
    by_cases h : s = ""
    · subst h; decide
    · simp [cleaned, trimmed, truthy, h]

theorem onData_eq (n : String) (buf : List Candidate) (r : Row) :
    onData n buf r = if validRow r then buf ++ [cardOfRow n r] else buf := by
  unfold onData validRow cardOfRow
  simp only [cleaned_eq_trimmed, truthy]
  by_cases h1 : trimmed r.Front = "" <;> by_cases h2 : trimmed r.Back = "" <;> simp [h1, h2]

theorem foldl_onData (n : String) (rows : List Row) (buf : List Candidate) :
    rows.foldl (onData n) buf = buf ++ validCards n rows := by
  induction rows generalizing buf with
  | nil => simp [validCards]
  | cons r rs ih =>
    rw [List.foldl_cons, ih, onData_eq]
    by_cases h : validRow r
    · simp [validCards, h]
    · simp [validCards, h]

theorem parseRows_eq (n : String) (rows : List Row) : parseRows n rows = validCards n rows := by
  simp [parseRows, foldl_onData]

/-! ## Lemmas on the bulk insert -/

theorem mkDocs_eq_zipWith (k : ObjectId) (cs : List Candidate) :
    mkDocs k cs = List.zipWith docOf (List.range' k cs.length) cs := by
  induction cs generalizing k with
  | nil => rfl
  | cons c cs ih => simp [mkDocs, List.range'_succ, ih, docOf]

theorem mkDocs_ids (k : ObjectId) (cs : List Candidate) :
    (mkDocs k cs).map (·._id) = List.range' k cs.length := by
  induction cs generalizing k with
  | nil => rfl
  | cons c cs ih => simp [mkDocs, List.range'_succ, ih]

theorem mkDocs_id_bounds (k : ObjectId) (cs : List Candidate) :
    ∀ d ∈ mkDocs k cs, k ≤ d._id ∧ d._id < k + cs.length := by
  intro d hd
  have h : d._id ∈ (mkDocs k cs).map (·._id) := List.mem_map_of_mem _ hd
  rw [mkDocs_ids, List.mem_range'_1] at h
  exact h

theorem mkDocs_collectionName (k : ObjectId) (cs : List Candidate) (n : String)
    (h : ∀ c ∈ cs, c.collectionName = n) : ∀ d ∈ mkDocs k cs, d.collectionName = n := by
  induction cs generalizing k with
  | nil => intro d hd; simp [mkDocs] at hd
  | cons c cs ih =>
    intro d hd
    simp only [mkDocs, List.mem_cons] at hd
    rcases hd with rfl | hd
    · exact h c (List.mem_cons_self _ _)
    · exact ih (k + 1) (fun c hc => h c (List.mem_cons_of_mem _ hc)) d hd

theorem validCards_collectionName (n : String) (rows : List Row) :
    ∀ c ∈ validCards n rows, c.collectionName = n := by
  intro c hc
  simp only [validCards, List.mem_map] at hc
  obtain ⟨r, _, rfl⟩ := hc
  rfl

/-! ## Lemmas on lookups by identifier -/

theorem find_id_of_nodup (l : List Flashcard) (hnd : (l.map (·._id)).Nodup) :
    ∀ d ∈ l, l.find? (·._id == d._id) = some d := by
  induction l with
  | nil => intro d hd; cases hd
  | cons a l ih =>
    intro d hd
    rw [List.map_cons, List.nodup_cons] at hnd
    rcases List.mem_cons.1 hd with rfl | hd
    · simp
    · have hne : a._id ≠ d._id := by
        intro he
        exact hnd.1 (he ▸ List.mem_map_of_mem _ hd)
      rw [List.find?_cons_of_neg _ (by simpa using hne)]
      exact ih hnd.2 d hd

theorem find_append_fresh (old l : List Flashcard) (id : ObjectId)
    (h : ∀ c ∈ old, c._id ≠ id) :
    (old ++ l).find? (·._id == id) = l.find? (·._id == id) := by
  induction old with
  | nil => rfl
  | cons a old ih =>
    have ha : a._id ≠ id := h a (List.mem_cons_self _ _)
    rw [List.cons_append, List.find?_cons_of_neg _ (by simpa using ha)]
    exact ih (fun c hc => h c (List.mem_cons_of_mem _ hc))

theorem find_append_old (old l : List Flashcard) (id : ObjectId) (c : Flashcard)
    (h : old.find? (·._id == id) = some c) :
    (old ++ l).find? (·._id == id) = some c := by
  simp [List.find?_append, h]

/-- Looking up, in the store extended by `docs`, a document of `docs` whose
identifier no older card has. -/
theorem findById_new (db : Store) (docs extra : List Flashcard) (cols : List Collection)
    (k : ObjectId) (hold : ∀ c ∈ db.flashcards, c._id < k)
    (hnd : (docs.map (·._id)).Nodup) (hnew : ∀ d ∈ docs, k ≤ d._id) :
    ∀ d ∈ docs,
      findById { flashcards := db.flashcards ++ docs ++ extra, collections := cols } d._id
        = some d := by
  intro d hd
  unfold findById
  simp only [List.append_assoc]
  rw [find_append_fresh]
  · simp [List.find?_append, find_id_of_nodup docs hnd d hd]
  · intro c hc he
    exact Nat.ne_of_lt (Nat.lt_of_lt_of_le (hold c hc) (hnew d hd)) he

theorem filterMap_lookup (f : ObjectId → Option Flashcard) (docs : List Flashcard)
    (h : ∀ d ∈ docs, f d._id = some d) :
    (docs.map (·._id)).filterMap f = docs := by
  induction docs with
  | nil => rfl
  | cons a l ih =>
    simp only [List.map_cons, List.filterMap_cons, h a (List.mem_cons_self _ _)]
    rw [ih (fun d hd => h d (List.mem_cons_of_mem _ hd))]

/-! ## Lemmas on the upload route -/

theorem not_mem_filter_ne (l : List String) (p : String) : p ∉ l.filter (· != p) := by
  simp [List.mem_filter]

/-- The upload route once both presence checks have passed. -/
theorem upload_named (st : State) (file : UploadedFile) (n : String) (hn : n ≠ "")
    (fault : Fault) :
    upload st ⟨some file, some n⟩ fault =
      ((onEnd (staged st file) ⟨st.nextId, n, []⟩ (validCards n file.rows) fault).1,
       unlinkSync (onEnd (staged st file) ⟨st.nextId, n, []⟩ (validCards n file.rows) fault).2
         file.path) := by
  simp [upload, multerSingle, truthy, hn, parseRows_eq, staged]

theorem validCards_pos_iff (n : String) (rows : List Row) :
    0 < (validCards n rows).length ↔ ∃ r ∈ rows, validRow r := by
  simp [validCards, List.length_pos_iff_exists_mem]

theorem validCards_nil_of_none (n : String) (rows : List Row)
    (h : ∀ r ∈ rows, ¬ validRow r) : validCards n rows = [] := by
  simp only [validCards, List.map_eq_nil_iff, List.filter_eq_nil_iff]
  intro r hr
  simpa using h r hr

/-- The state after a successful upload. -/
theorem upload_ok (st : State) (file : UploadedFile) (n : String) (hn : n ≠ "")
    (hv : ∃ r ∈ file.rows, validRow r) :
    upload st ⟨some file, some n⟩ .none =
      (⟨200, .message "Flashcards uploaded and collection created"⟩,
       { db := { flashcards := st.db.flashcards ++ mkDocs (st.nextId + 1) (validCards n file.rows),
                 collections := st.db.collections ++
                   [⟨st.nextId, n, (mkDocs (st.nextId + 1) (validCards n file.rows)).map (·._id)⟩] },
         nextId := st.nextId + 1 + (validCards n file.rows).length,
         disk := st.disk.filter (· != file.path) }) := by
  have hpos := (validCards_pos_iff n file.rows).2 hv
  rw [upload_named st file n hn]
  simp [onEnd, hpos, unlinkSync, staged, List.filter_filter]

/-- The valid cards of a file depend on the `Front` and `Back` columns only. -/
theorem validCards_congr (n : String) (rows rows2 : List Row)
    (h : rows2.map (fun r => (r.Front, r.Back)) = rows.map (fun r => (r.Front, r.Back))) :
    validCards n rows2 = validCards n rows := by
  induction rows2 generalizing rows with
  | nil =>
    cases rows with
    | nil => rfl
    | cons a l => simp at h
  | cons b l2 ih =>
    cases rows with
    | nil => simp at h
    | cons a l =>
      simp only [List.map_cons, List.cons.injEq, Prod.mk.injEq] at h
      obtain ⟨⟨hf, hb⟩, ht⟩ := h
      have hval : validRow b ↔ validRow a := by simp [validRow, hf, hb]
      have hcard : cardOfRow n b = cardOfRow n a := by simp [cardOfRow, hf, hb]
      have ih2 := ih l ht
      simp only [validCards] at ih2 ⊢
      by_cases ha : validRow a
      · simp [List.filter_cons, hval, ha, hcard, ih2]
      · simp [List.filter_cons, hval, ha, ih2]

/-! ## Lemmas on the update route -/

theorem find_updateFirst_same (id : ObjectId) (k r : Bool) (l : List Flashcard) :
    (updateFirst id k r l).find? (·._id == id) = (l.find? (·._id == id)).map (setFlags k r) := by
  induction l with
  | nil => rfl
  | cons a l ih =>
    by_cases h : a._id = id
    · simp [updateFirst, h, setFlags]
    · simp [updateFirst, h, List.find?_cons_of_neg, ih]

theorem find_updateFirst_other (id j : ObjectId) (hj : j ≠ id) (k r : Bool) (l : List Flashcard) :
    (updateFirst id k r l).find? (·._id == j) = l.find? (·._id == j) := by
  induction l with
  | nil => rfl
  | cons a l ih =>
    by_cases h : a._id = id
    · have h2 : ¬ a._id = j := fun e => hj (e.symm.trans h)
      simp [updateFirst, h, List.find?_cons, hj.symm]
    · by_cases h2 : a._id = j
      · subst h2
        simp [updateFirst, h]
      · simp [updateFirst, h, List.find?_cons_of_neg, h2, ih]

theorem updateFirst_idem (id : ObjectId) (k r : Bool) (l : List Flashcard) :
    updateFirst id k r (updateFirst id k r l) = updateFirst id k r l := by
  induction l with
  | nil => rfl
  | cons a l ih =>
    by_cases h : a._id = id
    · simp [updateFirst, h]
    · simp [updateFirst, h, ih]

theorem updateFirst_absent (id : ObjectId) (k r : Bool) (l : List Flashcard)
    (h : l.find? (·._id == id) = none) : updateFirst id k r l = l := by
  induction l with
  | nil => rfl
  | cons a l ih =>
    by_cases ha : a._id = id
    · simp [ha] at h
    · rw [List.find?_cons_of_neg _ (by simpa using ha)] at h
      simp [updateFirst, ha, ih h]

theorem updateFirst_ids (id : ObjectId) (k r : Bool) (l : List Flashcard) :
    ∀ c ∈ updateFirst id k r l, ∃ c0 ∈ l, c._id = c0._id := by
  induction l with
  | nil => intro c hc; simp [updateFirst] at hc
  | cons a l ih =>
    intro c hc
    unfold updateFirst at hc
    split at hc
    · rcases List.mem_cons.1 hc with h1 | h1
      · exact ⟨a, List.mem_cons_self _ _, by rw [h1]⟩
      · exact ⟨c, List.mem_cons_of_mem _ h1, rfl⟩
    · rcases List.mem_cons.1 hc with h1 | h1
      · exact ⟨a, List.mem_cons_self _ _, by rw [h1]⟩
      · obtain ⟨c0, h0, e⟩ := ih c h1
        exact ⟨c0, List.mem_cons_of_mem _ h0, e⟩

/-- The update route on a well-formed identifier when the store answers. -/
theorem updateCard_eq (st : State) (i : ObjectId) (k r : Bool) :
    updateCard st (some i) k r false =
      (⟨200, .card ((findById st.db i).map (setFlags k r))⟩,
       { st with db := { st.db with flashcards := updateFirst i k r st.db.flashcards } }) := by
  simp [updateCard, findByIdAndUpdate, findById, find_updateFirst_same]

/-! ## The invariant of the reachable states -/

theorem inv_init : Inv init := by
  constructor
  · intro c hc; cases hc
  · intro c hc; cases hc

theorem refsOk_append (cards l : List Flashcard) (cols : List Collection)
    (h : RefsOk ⟨cards, cols⟩) : RefsOk ⟨cards ++ l, cols⟩ := by
  intro c hc id hid
  obtain ⟨card, hf, hn⟩ := h c hc id hid
  exact ⟨card, find_append_old cards l id card hf, hn⟩

theorem inv_onEnd (st : State) (col : Collection) (cands : List Candidate) (fault : Fault)
    (hc : ∀ c ∈ cands, c.collectionName = col.name) (h : Inv st) :
    Inv (onEnd st col cands fault).2 := by
  obtain ⟨hfresh, hrefs⟩ := h
  have hdocs := mkDocs_id_bounds st.nextId cands
  unfold onEnd
  split
  · cases fault with
    | insertMany written =>
      refine ⟨?_, refsOk_append _ _ _ hrefs⟩
      intro c hmem
      rcases List.mem_append.1 hmem with h1 | h1
      · exact Nat.lt_of_lt_of_le (hfresh c h1) (Nat.le_add_right _ _)
      · exact (hdocs c (List.mem_of_mem_take h1)).2
    | save =>
      refine ⟨?_, refsOk_append _ _ _ hrefs⟩
      intro c hmem
      rcases List.mem_append.1 hmem with h1 | h1
      · exact Nat.lt_of_lt_of_le (hfresh c h1) (Nat.le_add_right _ _)
      · exact (hdocs c h1).2
    | none =>
      constructor
      · intro c hmem
        rcases List.mem_append.1 hmem with h1 | h1
        · exact Nat.lt_of_lt_of_le (hfresh c h1) (Nat.le_add_right _ _)
        · exact (hdocs c h1).2
      · intro c hmem id hid
        rcases List.mem_append.1 hmem with h1 | h1
        · obtain ⟨card, hf, hn⟩ := hrefs c h1 id hid
          exact ⟨card, find_append_old _ _ id card hf, hn⟩
        · rw [List.mem_singleton] at h1
          subst h1
          obtain ⟨d, hd, rfl⟩ := List.mem_map.1 hid
          refine ⟨d, ?_, mkDocs_collectionName st.nextId cands col.name hc d hd⟩
          have hnd : ((mkDocs st.nextId cands).map (·._id)).Nodup := by
            rw [mkDocs_ids]; exact List.nodup_range' _ _
          have := findById_new st.db (mkDocs st.nextId cands) [] st.db.collections st.nextId
            hfresh hnd (fun d hd => (hdocs d hd).1) d hd
          simpa [findById] using this
  · exact ⟨hfresh, hrefs⟩

theorem inv_upload (st : State) (req : UploadRequest) (fault : Fault) (h : Inv st) :
    Inv (upload st req fault).2 := by
  obtain ⟨file, cn⟩ := req
  cases file with
  | none => simpa [upload, multerSingle] using h
  | some file =>
    cases cn with
    | none => simpa [upload, multerSingle, truthy, Inv, Fresh] using h
    | some n =>
      by_cases hn : n = ""
      · subst hn
        simpa [upload, multerSingle, truthy, Inv, Fresh] using h
      · rw [upload_named st file n hn]
        have hst : Inv (staged st file) :=
          ⟨fun c hc => Nat.lt_succ_of_lt (h.1 c hc), h.2⟩
        exact inv_onEnd (staged st file) ⟨st.nextId, n, []⟩ _ fault
          (validCards_collectionName n file.rows) hst

theorem inv_updateCard (st : State) (id : Option ObjectId) (k r dbError : Bool) (h : Inv st) :
    Inv (updateCard st id k r dbError).2 := by
  cases id with
  | none => exact h
  | some i =>
    cases dbError with
    | true => exact h
    | false =>
      rw [updateCard_eq]
      constructor
      · intro c hc
        obtain ⟨c0, h0, e⟩ := updateFirst_ids i k r st.db.flashcards c hc
        have := h.1 c0 h0
        show c._id < st.nextId
        rw [e]; exact this
      · intro c hc id hid
        obtain ⟨card, hf, hn⟩ := h.2 c hc id hid
        by_cases hij : id = i
        · subst hij
          refine ⟨setFlags k r card, ?_, hn⟩
          show (updateFirst id k r st.db.flashcards).find? (·._id == id) = _
          rw [find_updateFirst_same]
          have hf2 : st.db.flashcards.find? (·._id == id) = some card := hf
          rw [hf2]; rfl
        · refine ⟨card, ?_, hn⟩
          show (updateFirst i k r st.db.flashcards).find? (·._id == id) = _
          rw [find_updateFirst_other i id hij]
          exact hf

theorem inv_step (st : State) (req : Request) (h : Inv st) : Inv (step st req).2 := by
  cases req with
  | upload req fault => exact inv_upload st req fault h
  | listCollections dbError => exact h
  | getCollectionCards name dbError => exact h
  | updateCard id k r dbError => exact inv_updateCard st id k r dbError h

theorem inv_run (reqs : List Request) (st : State) (h : Inv st) : Inv (run st reqs) := by
  induction reqs generalizing st with
  | nil => exact h
  | cons r rs ih => exact ih _ (inv_step st r h)

/-! ## The upload route: rows, validation, commit -/

/-- C1: the row step of the upload handler appends the card of a row to the
buffer exactly when both the trimmed `Front` and the trimmed `Back` of the row
are non-empty (a missing column counts as empty), and otherwise returns the
buffer unchanged; over a whole file the buffer is the list of the valid rows in
row order; the rows Bonjour/Hello, (empty)/Oui, Chat/Cat give the two cards
Bonjour/Hello and Chat/Cat. -/
theorem onData_adds_iff_valid :
    (∀ (n : String) (buf : List Candidate) (r : Row),
      (onData n buf r = buf ++ [cardOfRow n r] ↔ validRow r) ∧
      (onData n buf r = buf ↔ ¬ validRow r)) ∧
    (∀ (n : String) (rows : List Row), parseRows n rows = validCards n rows) ∧
    parseRows "French" sampleRows =
      [⟨"Bonjour", "Hello", "French"⟩, ⟨"Chat", "Cat", "French"⟩] ∧
    parseRows "French" blankFile.rows = [] := by
  refine ⟨?_, parseRows_eq, by decide, by decide⟩
  intro n buf r
  rw [onData_eq]
  by_cases h : validRow r
  · simp [h]
  · simp [h]

/-- C2: an upload with a file, a non-empty collection name `n` and at least one
valid row, when both store writes succeed, answers 200, appends to the card
store exactly the valid rows in row order (front and back trimmed, collection
name `n`, flags at their defaults, consecutive fresh identifiers) and appends
exactly one collection named `n` whose `flashcards` is the list of those
identifiers in the same order; columns other than `Front` and `Back` do not
change the outcome. -/
theorem upload_inserts_valid_rows (st : State) (file : UploadedFile) (n : String)
    (hn : n ≠ "") (hv : ∃ r ∈ file.rows, validRow r) :
    (upload st ⟨some file, some n⟩ .none).1 =
      ⟨200, .message "Flashcards uploaded and collection created"⟩ ∧
    (upload st ⟨some file, some n⟩ .none).2.db.flashcards =
      st.db.flashcards ++
        List.zipWith
          (fun id r => (⟨id, trimmed r.Front, trimmed r.Back, n, false, false⟩ : Flashcard))
          (List.range' (st.nextId + 1) (file.rows.filter (fun r => decide (validRow r))).length)
          (file.rows.filter (fun r => decide (validRow r))) ∧
    (upload st ⟨some file, some n⟩ .none).2.db.collections =
      st.db.collections ++
        [⟨st.nextId, n,
          List.range' (st.nextId + 1) (file.rows.filter (fun r => decide (validRow r))).length⟩] ∧
    (∀ file2 : UploadedFile, file2.path = file.path →
      file2.rows.map (fun r => (r.Front, r.Back)) = file.rows.map (fun r => (r.Front, r.Back)) →
      upload st ⟨some file2, some n⟩ .none = upload st ⟨some file, some n⟩ .none) := by
  have hlen : (validCards n file.rows).length
      = (file.rows.filter (fun r => decide (validRow r))).length := by
    simp [validCards]
  refine ⟨?_, ?_, ?_, ?_⟩
  · rw [upload_ok st file n hn hv]
  · rw [upload_ok st file n hn hv]
    simp only [mkDocs_eq_zipWith, hlen]
    simp only [validCards, List.zipWith_map_right]
    rfl
  · rw [upload_ok st file n hn hv]
    simp only [mkDocs_ids, hlen]
  · intro file2 hp hrows
    have hv2 : ∃ r ∈ file2.rows, validRow r := by
      rw [← validCards_pos_iff n, validCards_congr n file.rows file2.rows hrows,
        validCards_pos_iff]
      exact hv
    rw [upload_ok st file n hn hv, upload_ok st file2 n hn hv2,
      validCards_congr n file.rows file2.rows hrows, hp]

/-- Witness of C2: the sample file uploaded as `French` to the server at
start-up gives the cards Bonjour/Hello and Chat/Cat and one collection `French`
listing their identifiers. -/
theorem upload_inserts_valid_rows_witness :
    ("French" ≠ "" ∧ ∃ r ∈ sampleFile.rows, validRow r) ∧
    (upload init ⟨some sampleFile, some "French"⟩ .none).2.db.flashcards =
      [⟨1, "Bonjour", "Hello", "French", false, false⟩,
       ⟨2, "Chat", "Cat", "French", false, false⟩] ∧
    (upload init ⟨some sampleFile, some "French"⟩ .none).2.db.collections =
      [⟨0, "French", [1, 2]⟩] :=
  have hv : ∃ r ∈ sampleFile.rows, validRow r :=
    ⟨⟨some "Bonjour", some "Hello", []⟩, by simp [sampleFile, sampleRows], by decide⟩
  have h := upload_inserts_valid_rows init sampleFile "French" (by decide) hv
  ⟨⟨by decide, hv⟩, h.2.1.trans (by decide), h.2.2.1.trans (by decide)⟩

/-- C4: an upload with a file and a non-empty collection name whose rows are all
invalid answers 400 and leaves both collections of the store as they were,
whatever the store would have done. -/
theorem upload_no_valid_row (st : State) (file : UploadedFile) (n : String) (fault : Fault)
    (hn : n ≠ "") (hv : ∀ r ∈ file.rows, ¬ validRow r) :
    (upload st ⟨some file, some n⟩ fault).1 =
      ⟨400, .message "Aucune flashcard valide trouvée dans le fichier CSV"⟩ ∧
    (upload st ⟨some file, some n⟩ fault).2.db = st.db := by
  rw [upload_named st file n hn, validCards_nil_of_none n file.rows hv]
  simp [onEnd, unlinkSync, staged]

/-- Witness of C4: a file of three invalid rows uploaded to a store that already
holds the `French` collection. -/
theorem upload_no_valid_row_witness :
    ("Vide" ≠ "" ∧ ∀ r ∈ blankFile.rows, ¬ validRow r) ∧
    (upload frenchState ⟨some blankFile, some "Vide"⟩ .none).1 =
      ⟨400, .message "Aucune flashcard valide trouvée dans le fichier CSV"⟩ ∧
    (upload frenchState ⟨some blankFile, some "Vide"⟩ .none).2.db = frenchState.db :=
  ⟨⟨by decide, by decide⟩,
    upload_no_valid_row frenchState blankFile "Vide" .none (by decide) (by decide)⟩

/-- C8: an upload without a file part answers 400 (no file) whether or not a
collection name was sent; an upload with a file whose collection name is absent
or the empty string answers 400 (name required); in all three cases the store
is left as it was. -/
theorem upload_validation (st : State) (file : UploadedFile) (cn : Option String)
    (fault : Fault) :
    (upload st ⟨none, cn⟩ fault = (⟨400, .message "Aucun fichier n'a été envoyé."⟩, st)) ∧
    ((upload st ⟨some file, none⟩ fault).1 = ⟨400, .message "Nom de la collection requis."⟩ ∧
      (upload st ⟨some file, none⟩ fault).2.db = st.db) ∧
    ((upload st ⟨some file, some ""⟩ fault).1 = ⟨400, .message "Nom de la collection requis."⟩ ∧
      (upload st ⟨some file, some ""⟩ fault).2.db = st.db) := by
  refine ⟨?_, ⟨?_, ?_⟩, ⟨?_, ?_⟩⟩ <;> simp [upload, multerSingle, truthy]

/-! ## Reading a collection back -/

/-- Counterexample of C3: the `French` collection exists already when a second
file is uploaded under the same name. The upload answers 200 and creates the
card Chien/Dog, yet the read of `French` returns the two cards of the first
upload. -/
theorem getCollectionCards_after_second_upload :
    (upload frenchState ⟨some secondFile, some "French"⟩ .none).1.status = 200 ∧
    (upload frenchState ⟨some secondFile, some "French"⟩ .none).2.db.flashcards.drop
        frenchState.db.flashcards.length =
      [⟨4, "Chien", "Dog", "French", false, false⟩] ∧
    getCollectionCards (upload frenchState ⟨some secondFile, some "French"⟩ .none).2
        "French" false =
      ⟨200, .cards [⟨1, "Bonjour", "Hello", "French", false, false⟩,
                    ⟨2, "Chat", "Cat", "French", false, false⟩]⟩ := by
  decide

/-- C3 (amended): in every state reached from start-up whose store holds no
collection named `n`, after a successful upload under the name `n` the read of
collection `n` answers 200 with exactly the cards that the upload created, as
full records, in row order. -/
theorem getCollectionCards_after_upload (reqs : List Request) (file : UploadedFile)
    (n : String) (hn : n ≠ "") (hv : ∃ r ∈ file.rows, validRow r)
    (hnew : findOne (run init reqs).db n = none) :
    (upload (run init reqs) ⟨some file, some n⟩ .none).1.status = 200 ∧
    getCollectionCards (upload (run init reqs) ⟨some file, some n⟩ .none).2 n false =
      ⟨200, .cards ((upload (run init reqs) ⟨some file, some n⟩ .none).2.db.flashcards.drop
        (run init reqs).db.flashcards.length)⟩ ∧
    (upload (run init reqs) ⟨some file, some n⟩ .none).2.db.flashcards.drop
        (run init reqs).db.flashcards.length =
      List.zipWith
        (fun id r => (⟨id, trimmed r.Front, trimmed r.Back, n, false, false⟩ : Flashcard))
        (List.range' ((run init reqs).nextId + 1)
          (file.rows.filter (fun r => decide (validRow r))).length)
        (file.rows.filter (fun r => decide (validRow r))) := by
  have hinv := inv_run reqs init inv_init
  generalize run init reqs = st at hinv hnew ⊢
  have hlen : (validCards n file.rows).length
      = (file.rows.filter (fun r => decide (validRow r))).length := by
    simp [validCards]
  have hdocs := mkDocs_id_bounds (st.nextId + 1) (validCards n file.rows)
  have hnd : ((mkDocs (st.nextId + 1) (validCards n file.rows)).map (·._id)).Nodup := by
    rw [mkDocs_ids]; exact List.nodup_range' _ _
  have hfresh : ∀ c ∈ st.db.flashcards, c._id < st.nextId + 1 :=
    fun c hc => Nat.lt_succ_of_lt (hinv.1 c hc)
  rw [upload_ok st file n hn hv]
  refine ⟨rfl, ?_, ?_⟩
  · have hfind : findOne
        { flashcards := st.db.flashcards ++ mkDocs (st.nextId + 1) (validCards n file.rows),
          collections := st.db.collections ++
            [⟨st.nextId, n, (mkDocs (st.nextId + 1) (validCards n file.rows)).map (·._id)⟩] } n
        = some ⟨st.nextId, n, (mkDocs (st.nextId + 1) (validCards n file.rows)).map (·._id)⟩ := by
      unfold findOne at hnew ⊢
      simp [List.find?_append, hnew]
    simp only [getCollectionCards, hfind, populate, Bool.false_eq_true, if_false,
      List.drop_left]
    rw [filterMap_lookup]
    intro d hd
    have := findById_new st.db (mkDocs (st.nextId + 1) (validCards n file.rows)) []
      (st.db.collections ++
        [⟨st.nextId, n, (mkDocs (st.nextId + 1) (validCards n file.rows)).map (·._id)⟩])
      (st.nextId + 1) hfresh hnd (fun d hd => (hdocs d hd).1) d hd
    simpa using this
  · simp only [List.drop_left, mkDocs_eq_zipWith, hlen]
    simp only [validCards, List.zipWith_map_right]
    rfl

/-- Witness of C3 (amended): the sample file uploaded as `French` to the server
at start-up is read back as Bonjour/Hello then Chat/Cat. -/
theorem getCollectionCards_after_upload_witness :
    ("French" ≠ "" ∧ (∃ r ∈ sampleFile.rows, validRow r) ∧
      findOne (run init []).db "French" = none) ∧
    getCollectionCards (upload (run init []) ⟨some sampleFile, some "French"⟩ .none).2
        "French" false =
      ⟨200, .cards [⟨1, "Bonjour", "Hello", "French", false, false⟩,
                    ⟨2, "Chat", "Cat", "French", false, false⟩]⟩ :=
  have hv : ∃ r ∈ sampleFile.rows, validRow r :=
    ⟨⟨some "Bonjour", some "Hello", []⟩, by simp [sampleFile, sampleRows], by decide⟩
  have h := getCollectionCards_after_upload [] sampleFile "French" (by decide) hv (by decide)
  ⟨⟨by decide, hv, by decide⟩, h.2.1.trans (by decide)⟩

/-- C9: when the store answers, the read of a collection answers 404 exactly
when no stored collection has exactly the requested name, and a 404 never
occurs otherwise; on the empty store every name gives 404; a stored collection
without cards gives 200 with an empty list; names are compared without
trimming and with case. -/
theorem getCollectionCards_404_iff :
    (∀ (st : State) (name : String),
      getCollectionCards st name false = ⟨404, .message "Collection not found"⟩ ↔
        ∀ c ∈ st.db.collections, c.name ≠ name) ∧
    (∀ (st : State) (name : String) (dbError : Bool),
      (getCollectionCards st name dbError).status = 404 →
        ∀ c ∈ st.db.collections, c.name ≠ name) ∧
    (∀ name : String,
      getCollectionCards init name false = ⟨404, .message "Collection not found"⟩) ∧
    (∀ (st : State) (name : String) (c : Collection),
      findOne st.db name = some c → c.flashcards = [] →
        getCollectionCards st name false = ⟨200, .cards []⟩) ∧
    (getCollectionCards frenchState "french" false).status = 404 ∧
    (getCollectionCards frenchState "French " false).status = 404 ∧
    (getCollectionCards frenchState "French" false).status = 200 := by
  have key : ∀ (st : State) (name : String),
      findOne st.db name = none ↔ ∀ c ∈ st.db.collections, c.name ≠ name := by
    intro st name
    simp [findOne, List.find?_eq_none]
  refine ⟨?_, ?_, ?_, ?_, by decide, by decide, by decide⟩
  · intro st name
    rw [← key]
    cases h : findOne st.db name <;> simp [getCollectionCards, h]
  · intro st name dbError h
    rw [← key]
    cases dbError with
    | true => simp [getCollectionCards] at h
    | false =>
      cases h2 : findOne st.db name with
      | none => rfl
      | some c => simp [getCollectionCards, h2] at h
  · intro name
    rfl
  · intro st name c h hc
    simp [getCollectionCards, h, populate, hc]

/-- Witness of C9: a store whose only collection, `Empty`, lists no card. -/
theorem getCollectionCards_404_iff_witness :
    (findOne emptyCollectionState.db "Empty" = some ⟨0, "Empty", []⟩) ∧
    getCollectionCards emptyCollectionState "Empty" false = ⟨200, .cards []⟩ ∧
    getCollectionCards emptyCollectionState "empty" false =
      ⟨404, .message "Collection not found"⟩ :=
  ⟨by decide,
    getCollectionCards_404_iff.2.2.2.1 emptyCollectionState "Empty" ⟨0, "Empty", []⟩
      (by decide) rfl,
    (getCollectionCards_404_iff.1 emptyCollectionState "empty").2 (by decide)⟩

/-! ## The temporary file -/

/-- Once the collection name is present, every path of the upload handler ends
with the deletion of the temporary file: no valid row, a rejected write, or
success. -/
theorem upload_unlinks_file (st : State) (file : UploadedFile) (n : String) (fault : Fault)
    (hn : n ≠ "") : file.path ∉ (upload st ⟨some file, some n⟩ fault).2.disk := by
  rw [upload_named st file n hn]
  exact not_mem_filter_ne _ _

/-- When the collection name is absent or empty, the handler returns before the
stream is opened and the temporary file stays in the upload directory. -/
theorem upload_keeps_file_without_name (st : State) (file : UploadedFile) (fault : Fault) :
    file.path ∈ (upload st ⟨some file, none⟩ fault).2.disk ∧
    file.path ∈ (upload st ⟨some file, some ""⟩ fault).2.disk := by
  constructor <;> simp [upload, multerSingle, truthy]

/-- C5: the upload handler evaluated on a request with a file and no collection
name, on the server at start-up: the answer is 400 and the temporary file is
still in the upload directory, whereas the same file sent with a name is
deleted. -/
theorem upload_without_name_leaves_file :
    upload init ⟨some sampleFile, none⟩ .none =
      (⟨400, .message "Nom de la collection requis."⟩, ⟨⟨[], []⟩, 0, ["uploads/a1"]⟩) ∧
    sampleFile.path ∈ (upload init ⟨some sampleFile, none⟩ .none).2.disk ∧
    sampleFile.path ∈ (upload init ⟨some sampleFile, some ""⟩ .none).2.disk ∧
    sampleFile.path ∉ (upload init ⟨some sampleFile, some "French"⟩ .none).2.disk ∧
    sampleFile.path ∉ (upload init ⟨some sampleFile, some "French"⟩ .save).2.disk ∧
    blankFile.path ∉ (upload init ⟨some blankFile, some "French"⟩ .none).2.disk := by
  decide

/-! ## The update route -/

/-- The update route on a well-formed identifier that no card has: the store
returns `null`, the handler answers 200 with the body `null`, and nothing is
written. -/
theorem updateCard_absent (st : State) (i : ObjectId) (k r : Bool)
    (h : findById st.db i = none) :
    updateCard st (some i) k r false = (⟨200, .card none⟩, st) := by
  rw [updateCard_eq, h]
  unfold findById at h
  rw [updateFirst_absent i k r st.db.flashcards h]
  rfl

/-- C6: the update route evaluated on an identifier that matches no card: on
the empty store and on the store holding the `French` collection the answer is
200 with the body `null`, not an error. -/
theorem updateCard_unknown_id_answers_200 :
    updateCard init (some 7) true true false = (⟨200, .card none⟩, init) ∧
    findById frenchState.db 7 = none ∧
    updateCard frenchState (some 7) true true false = (⟨200, .card none⟩, frenchState) := by
  decide

/-- C7: for a card `c` found under the identifier `i` and any two booleans, when
the store answers, the update route answers 200 with the record of `c` in which
`known` and `reviewed` are the supplied values and `front`, `back` and
`collectionName` are those of `c`; a later lookup of `i` returns that record;
and the same update applied once more returns the same answer and leaves the
state as it is. -/
theorem updateCard_existing (st : State) (i : ObjectId) (c : Flashcard) (known reviewed : Bool)
    (hc : findById st.db i = some c) :
    (updateCard st (some i) known reviewed false).1 =
      ⟨200, .card (some ⟨i, c.front, c.back, c.collectionName, known, reviewed⟩)⟩ ∧
    findById (updateCard st (some i) known reviewed false).2.db i =
      some ⟨i, c.front, c.back, c.collectionName, known, reviewed⟩ ∧
    updateCard (updateCard st (some i) known reviewed false).2 (some i) known reviewed false =
      updateCard st (some i) known reviewed false := by
  have hid : c._id = i := by
    have := List.find?_some hc
    simpa using this
  have hrec : setFlags known reviewed c
      = ⟨i, c.front, c.back, c.collectionName, known, reviewed⟩ := by
    simp [setFlags, hid]
  have hfind : findById
      { st.db with flashcards := updateFirst i known reviewed st.db.flashcards } i
        = some (setFlags known reviewed c) := by
    unfold findById at hc ⊢
    show (updateFirst i known reviewed st.db.flashcards).find? (·._id == i) = _
    rw [find_updateFirst_same, hc]
    rfl
  refine ⟨?_, ?_, ?_⟩
  · rw [updateCard_eq, hc, ← hrec]; rfl
  · rw [updateCard_eq, ← hrec]; exact hfind
  · rw [updateCard_eq st, updateCard_eq]
    simp only [hfind, hc, updateFirst_idem, Option.map_some']
    simp [setFlags]

/-- Witness of C7: the card Bonjour/Hello of the `French` collection marked
known and reviewed. -/
theorem updateCard_existing_witness :
    findById frenchState.db 1 = some ⟨1, "Bonjour", "Hello", "French", false, false⟩ ∧
    (updateCard frenchState (some 1) true true false).1 =
      ⟨200, .card (some ⟨1, "Bonjour", "Hello", "French", true, true⟩)⟩ ∧
    findById (updateCard frenchState (some 1) true true false).2.db 1 =
      some ⟨1, "Bonjour", "Hello", "French", true, true⟩ :=
  have h := updateCard_existing frenchState 1 ⟨1, "Bonjour", "Hello", "French", false, false⟩
    true true (by decide)
  ⟨by decide, h.1, h.2.1⟩

/-! ## The store invariant -/

/-- C10: in every state reached from the empty store by a sequence of upload,
list, read and update requests, whatever the store does during each of them
(a rejected bulk insert after any number of written documents, a rejected
collection save after a complete insert, a rejected query or update), every
identifier listed by a stored collection resolves to a stored card whose
`collectionName` is the name of that collection. -/
theorem refsOk_reachable (reqs : List Request) : RefsOk (run init reqs).db :=
  (inv_run reqs init inv_init).2

end Server
